import Mathlib

/-!
Verification of the spill-detection repository's core components against its
specification.  The development shallowly embeds two source files:

* `traffic_manager/cell_manager.py` (`CellMng`): per-cell traffic metrics and
  the danger/confidence state machine.  Floats are embedded as rationals;
  Python `ZeroDivisionError` / `IndexError` paths are made explicit via
  `Option` / `Except`.
* `road_calibration/__init__.py` (`Calibrator`): the one-shot calibration
  pipeline.  The helper module `road_calibration.algorithms` (`dbi`,
  `calQuartiles`, `poly2fit`, `poly2fitFrozen`, `cutPts`) is not part of the
  sources, so those leaf functions are taken as parameters (`CalibFns`); no
  verified property depends on their values.
-/

/-- One vehicle record as consumed by `CellMng` (`car['vx']`, `car['vy']`). -/
structure Car where
  vx : ℚ
  vy : ℚ
deriving DecidableEq, Repr

/-- State of `CellMng` (`traffic_manager/cell_manager.py`).  Field names follow
the Python attributes; `end` is renamed `end'` (Lean keyword). -/
structure Cell where
  laneID : Int
  order : Int
  valid : Bool
  len : ℚ
  start : ℚ
  end' : ℚ
  q : ℚ
  k : ℚ
  v : ℚ
  aveCarNum : ℚ
  r1s : ℚ
  qs : ℚ
  r1 : ℚ
  r2 : ℚ
  vLat : ℚ
  dangerTime : ℚ
  dangerChange : ℚ
  danger : ℚ
  dangerTimeTop : ℚ
  cache : List (List Car)
  cacheRet : ℕ
  r2added : Bool
deriving DecidableEq, Repr

/-- `CellMng.__init__`: traffic metrics start at 0, `r1s = 1/tt/fps`,
`r1 = 0`, danger state zeroed, `dangerTimeTop = 0.5`, empty cache,
`r2added = False`. -/
def mkCell (laneID order : Int) (valid : Bool)
    (len start end' tt fps qs r2 vLat : ℚ) (cacheRet : ℕ) : Cell :=
  { laneID := laneID, order := order, valid := valid
    len := len, start := start, end' := end'
    q := 0, k := 0, v := 0, aveCarNum := 0
    r1s := 1 / tt / fps, qs := qs, r1 := 0, r2 := r2, vLat := vLat
    dangerTime := 0, dangerChange := 0, danger := 0
    dangerTimeTop := 1 / 2
    cache := [], cacheRet := cacheRet, r2added := false }

/-- `CellMng.updateCache`: append the frame, evict the oldest frame when the
cache has grown past `cacheRet`. -/
def updateCache (cars : List Car) (c : Cell) : Cell :=
  let cache := c.cache ++ [cars]
  if cache.length > c.cacheRet then { c with cache := cache.tail }
  else { c with cache := cache }

/-- Iterated `updateCache`, one call per frame, in arrival order. -/
def applyFrames (frames : List (List Car)) (c : Cell) : Cell :=
  frames.foldl (fun c f => updateCache f c) c

/-- `CellMng.updateTraffic`.  `none` models the `ZeroDivisionError` raised by
`len(cars)/baseT` when `baseT = 0` and by `aveCarNum/self.len` when the cell
length is zero. -/
def updateTraffic (c : Cell) : Option Cell :=
  let baseT : ℕ := if c.cache.length < c.cacheRet then c.cache.length else c.cacheRet
  if baseT = 0 then none
  else
    let cars := c.cache.flatten
    let aveCarNum : ℚ := (cars.length : ℚ) / (baseT : ℚ)
    if c.len = 0 then none
    else
      let k := aveCarNum / c.len * 1000
      let v := if aveCarNum = 0 then 0
               else |((cars.map Car.vy).sum)| / (cars.length : ℚ)
      some { c with aveCarNum := aveCarNum, k := k, v := v, q := k * v * (36 / 10) }

/-- `CellMng.updateR1`: `r1 = r1s * q / qs` (total over ℚ; the machine-level
step guards the `qs = 0` division). -/
def updateR1 (q : ℚ) (c : Cell) : Cell :=
  { c with r1 := c.r1s * q / c.qs }

/-- `CellMng.updateDanger`.  `none` models the `IndexError` of `self.cache[-1]`
on an empty cache.  Returns the updated cell together with
`(PossibleFrontSpill, order)`. -/
def updateDanger (c : Cell) : Option (Cell × Bool × Int) :=
  match c.cache.getLast? with
  | none => none
  | some lastFrame =>
    if lastFrame.length ≠ 0 then
      let c' := { c with dangerTime := 0, dangerChange := 0, danger := 0 }
      some (c', lastFrame.any (fun car => |car.vx| > c.vLat), c.order)
    else
      let dt0 := c.dangerTime + c.r1
      let dt := if dt0 > c.dangerTimeTop then c.dangerTimeTop else dt0
      some ({ c with dangerTime := dt, danger := dt + c.dangerChange }, false, c.order)

/-- `CellMng.updateDangerPassive`: add `r2` to `dangerChange` once per frame,
guarded by `r2added`. -/
def updateDangerPassive (c : Cell) : Cell :=
  if c.r2added then c
  else
    { c with dangerChange := c.dangerChange + c.r2, r2added := true
             danger := c.dangerTime + (c.dangerChange + c.r2) }

/-- `CellMng.resetCellDetermineStatus`: clear the per-frame boost guard. -/
def resetCellDetermineStatus (c : Cell) : Cell :=
  { c with r2added := false }

/-- `CellMng.resetDanger`: zero all danger state. -/
def resetDanger (c : Cell) : Cell :=
  { c with dangerTime := 0, dangerChange := 0, danger := 0 }

/-- Calls into a `CellMng` instance, for reasoning about interleavings. -/
inductive CellOp where
  | updCache : List Car → CellOp
  | updR1 : ℚ → CellOp
  | updDanger : CellOp
  | updDangerPassive : CellOp
  | resetStatus : CellOp
  | resetDangerOp : CellOp
deriving DecidableEq, Repr

/-- One call.  `none` models the Python exception paths (`updateDanger` on an
empty cache, `updateR1` with `qs = 0`). -/
def stepOp : CellOp → Cell → Option Cell
  | .updCache cars, c => some (updateCache cars c)
  | .updR1 q, c => if c.qs = 0 then none else some (updateR1 q c)
  | .updDanger, c => (updateDanger c).map (·.1)
  | .updDangerPassive, c => some (updateDangerPassive c)
  | .resetStatus, c => some (resetCellDetermineStatus c)
  | .resetDangerOp, c => some (resetDanger c)

/-- Run a call sequence; `none` as soon as one call raises. -/
def runOps : List CellOp → Cell → Option Cell
  | [], c => some c
  | op :: rest, c =>
    match stepOp op c with
    | none => none
    | some c' => runOps rest c'

/-- A call is benign when any flow it feeds to `updateR1` is nonnegative. -/
def opFlowOk : CellOp → Bool
  | .updR1 q => decide (0 ≤ q)
  | _ => true

/-- A call is neither `updR1` nor `updDangerPassive`. -/
def opNoR1NoBoost : CellOp → Bool
  | .updR1 _ => false
  | .updDangerPassive => false
  | _ => true

/-- The spec scenario cell: `cacheRetention = 3`, `length = 50`, cache built
from the frames `[[{vy:10}], [{vy:-10}], []]`. -/
def scenarioCell : Cell :=
  applyFrames [[⟨0, 10⟩], [⟨0, -10⟩], []] (mkCell 1 0 true 50 0 50 1 1 1 (1/2) (3/2) 3)

/-- A concrete cell with `r2added = false` and nonzero `r2`. -/
def plainCell : Cell := mkCell 2 1 true 50 0 50 1 1 1800 (3/10) (3/2) 3

def wFrames : List (List Car) := [[], [⟨1, 2⟩], [], [⟨0, 3⟩], []]

def dangerOk (c : Cell) : Prop :=
  0 ≤ c.dangerTime ∧ c.dangerTime ≤ c.dangerTimeTop ∧
  c.danger = c.dangerTime + c.dangerChange

def dangerInv (c : Cell) : Prop :=
  0 ≤ c.dangerTime ∧ c.dangerTime ≤ c.dangerTimeTop ∧
  c.danger = c.dangerTime + c.dangerChange ∧
  0 ≤ c.r1 ∧ 0 ≤ c.dangerTimeTop ∧ 0 ≤ c.r1s ∧ 0 < c.qs

def opsW : List CellOp :=
  [.updCache [], .updR1 5, .updDanger, .updDangerPassive, .resetStatus, .resetDangerOp, .updDanger]

def cellW : Cell := mkCell 1 0 true 50 0 50 1 1 1 (3/10) (3/2) 3

def zeroInv (c : Cell) : Prop :=
  c.r1 = 0 ∧ c.dangerTime = 0 ∧ c.dangerChange = 0 ∧ c.danger = 0 ∧ 0 ≤ c.dangerTimeTop

def opsW10 : List CellOp :=
  [.updCache [], .updDanger, .updCache [⟨5, 5⟩], .updDanger, .updCache [], .updDanger,
   .resetDangerOp, .resetStatus]

/-- A 2-D trajectory sample `[x, y]`. -/
abbrev Pt := ℚ × ℚ

/-- Quadratic coefficients `[c2, c1, c0]` (numpy highest-degree-first order). -/
abbrev Coef := ℚ × ℚ × ℚ

/-- Python exception kinds surfaced by the calibration pipeline. -/
inductive CErr where
  | keyError
  | indexError
  | valueError
  | zeroDivisionError
deriving DecidableEq, Repr

/-- Python-dict lookup (`d[k]` without the raise). -/
def dictLookup {α : Type} : List (ℕ × α) → ℕ → Option α
  | [], _ => none
  | (k', v') :: rest, k => if k' = k then some v' else dictLookup rest k

/-- Python-dict assignment `d[k] = v`: replace in place, else append. -/
def dictInsert {α : Type} : List (ℕ × α) → ℕ → α → List (ℕ × α)
  | [], k, v => [(k, v)]
  | (k', v') :: rest, k, v =>
    if k' = k then (k, v) :: rest else (k', v') :: dictInsert rest k v

/-- Stable-enough insertion by a rational key (only the extremal key values are
ever read, so tie order is immaterial). -/
def insertByKey {α : Type} (f : α → ℚ) (x : α) : List α → List α
  | [] => [x]
  | y :: ys => if f x ≤ f y then x :: y :: ys else y :: insertByKey f x ys

/-- `list.sort(key=f)`. -/
def sortByKey {α : Type} (f : α → ℚ) : List α → List α
  | [] => []
  | x :: xs => insertByKey f x (sortByKey f xs)

/-- Parameters standing for `road_calibration.algorithms` (`dbi`,
`calQuartiles`, `poly2fit`, `poly2fitFrozen`, `cutPts`) and `np.sqrt`; that
module is not among the sources, and no verified property depends on the
values these functions return. -/
structure CalibFns where
  dbi : List Pt → ℚ
  calQuartiles : List Pt → List Pt
  poly2fit : List Pt → Coef
  poly2fitFrozen : List Pt → ℚ → Coef
  cutPts : ℚ → ℚ → ℚ → List ℚ
  sqrtQ : ℚ → ℚ

/-- State of `Calibrator` (`road_calibration/__init__.py`).  Dicts become
insertion-ordered association lists; `clbPath` (pure I/O) is dropped;
`intID`/`extID` are created by `_distinguishInnerAndOutboardLaneID` and start
at a dummy 0. -/
structure Calibrator where
  fps : ℚ
  laneWidth : ℚ
  emgcWidth : ℚ
  cellLen : ℚ
  qMerge : ℚ
  count : ℕ
  xyByLane : List (ℕ × List Pt)
  vxyCount : List (ℕ × (Int × Int))
  laneIDs : List ℕ
  emgcIDs : List ℕ
  vDirDict : List (ℕ × (Int × Int))
  xyMinMax : List (ℕ × (ℚ × ℚ × ℚ × ℚ))
  globalXYMinMax : ℚ × ℚ × ℚ × ℚ
  polyPts : List (ℕ × List Pt)
  intID : ℕ
  extID : ℕ
  coef : List (ℕ × Coef)
  cells : List (ℕ × List Bool)
deriving Repr

/-- `Calibrator.__init__` (defaults: `laneWidth=3.75`, `emgcWidth=3.5`,
`cellLen=50.0`, `qMerge=0`). -/
def mkCalibrator (fps laneWidth emgcWidth cellLen qMerge : ℚ) : Calibrator :=
  { fps := fps, laneWidth := laneWidth, emgcWidth := emgcWidth
    cellLen := cellLen, qMerge := qMerge, count := 0
    xyByLane := [], vxyCount := [], laneIDs := [], emgcIDs := []
    vDirDict := [], xyMinMax := [], globalXYMinMax := (0, 0, 0, 0)
    polyPts := [], intID := 0, extID := 0, coef := [], cells := [] }

/-- One detection record as consumed by `Calibrator.run`. -/
structure Target where
  laneID : ℕ
  x : ℚ
  y : ℚ
  vx : ℚ
  vy : ℚ
deriving DecidableEq, Repr

/-- Body of the `for target in msg` loop of `Calibrator.run`. -/
def runTarget (s : Calibrator) (t : Target) : Calibrator :=
  let laneID := if t.laneID > 100 then t.laneID - 100 else t.laneID
  let s :=
    if (dictLookup s.xyByLane laneID).isSome then s
    else { s with xyByLane := dictInsert s.xyByLane laneID []
                  vxyCount := dictInsert s.vxyCount laneID (0, 0) }
  let xs := (dictLookup s.xyByLane laneID).getD []
  let s := { s with xyByLane := dictInsert s.xyByLane laneID (xs ++ [(t.x, t.y)]) }
  let v := (dictLookup s.vxyCount laneID).getD (0, 0)
  let vx := if t.vx > 0 then v.1 + 1 else if t.vx < 0 then v.1 - 1 else v.1
  let vy := if t.vy > 0 then v.2 + 1 else if t.vy < 0 then v.2 - 1 else v.2
  { s with vxyCount := dictInsert s.vxyCount laneID (vx, vy) }

/-- `Calibrator.run`: bump the frame count, fold the targets. -/
def runMsg (msg : List Target) (s : Calibrator) : Calibrator :=
  msg.foldl runTarget { s with count := s.count + 1 }

/-- `Calibrator._distinguishNormalAndEmgcLanes`: lane set `1..m` with `m` the
max observed id padded to even; emergency lanes `[1, m]`.  `max()` on an empty
dict raises `ValueError`. -/
def distinguishNormalAndEmgcLanes (s : Calibrator) : Except CErr Calibrator :=
  match (s.xyByLane.map Prod.fst).max? with
  | none => .error .valueError
  | some M =>
    let m := if M % 2 = 1 then M + 1 else M
    .ok { s with laneIDs := List.range' 1 m, emgcIDs := [1, m] }

/-- `Calibrator._distinguishInnerAndOutboardLaneID`: compare the dispersion of
the two lanes adjacent to the emergency lanes. -/
def distinguishInnerAndOutboardLaneID (F : CalibFns) (s : Calibrator) :
    Except CErr Calibrator :=
  match s.emgcIDs.get? 0, s.emgcIDs.get? 1 with
  | some e0, some e1 =>
    let lane2 := e0 + 1
    let laneN1 := e1 - 1
    match dictLookup s.xyByLane lane2, dictLookup s.xyByLane laneN1 with
    | some l2, some lN1 =>
      if F.dbi l2 < F.dbi lN1 then .ok { s with intID := lane2, extID := laneN1 }
      else .ok { s with intID := laneN1, extID := lane2 }
    | _, _ => .error .keyError
  | _, _ => .error .indexError

/-- First loop of `_distinguishLaneDirection`: vote sign per non-emergency
lane (zero votes default to `+1`). -/
def dirLoop (emgc : List ℕ) (vxy : List (ℕ × (Int × Int))) :
    List ℕ → List (ℕ × (Int × Int)) → Except CErr (List (ℕ × (Int × Int)))
  | [], acc => .ok acc
  | id :: rest, acc =>
    if id ∈ emgc then dirLoop emgc vxy rest acc
    else
      match dictLookup vxy id with
      | none => .error .keyError
      | some v =>
        dirLoop emgc vxy rest
          (dictInsert acc id (if v.1 < 0 then -1 else 1, if v.2 < 0 then -1 else 1))

/-- Second loop of `_distinguishLaneDirection`: lane 1 copies lane 2, other
emergency lanes copy their inner neighbour. -/
def emgcDirLoop : List ℕ → List (ℕ × (Int × Int)) → Except CErr (List (ℕ × (Int × Int)))
  | [], acc => .ok acc
  | id :: rest, acc =>
    let src := if id = 1 then id + 1 else id - 1
    match dictLookup acc src with
    | none => .error .keyError
    | some t => emgcDirLoop rest (dictInsert acc id t)

/-- `Calibrator._distinguishLaneDirection`. -/
def distinguishLaneDirection (s : Calibrator) : Except CErr Calibrator :=
  match dirLoop s.emgcIDs s.vxyCount s.laneIDs [] with
  | .error e => .error e
  | .ok d1 =>
    match emgcDirLoop s.emgcIDs d1 with
    | .error e => .error e
    | .ok d2 => .ok { s with vDirDict := d2 }

/-- Loop body of `_calibXYMinMax`: sort each lane's samples by x then by y,
reading the extremes (`[0]`/`[-1]` on an empty lane raise `IndexError`). -/
def minMaxLoop :
    List (ℕ × List Pt) → List (ℕ × List Pt) → List (ℕ × (ℚ × ℚ × ℚ × ℚ)) →
    (ℚ × ℚ × ℚ × ℚ) →
    Except CErr (List (ℕ × List Pt) × List (ℕ × (ℚ × ℚ × ℚ × ℚ)) × (ℚ × ℚ × ℚ × ℚ))
  | [], xyAcc, mmAcc, g => .ok (xyAcc, mmAcc, g)
  | (lane, ptsL) :: rest, xyAcc, mmAcc, g =>
    let sx := sortByKey (fun p => p.1) ptsL
    match sx.head?, sx.getLast? with
    | some fx, some lx =>
      let sy := sortByKey (fun p => p.2) sx
      match sy.head?, sy.getLast? with
      | some fy, some ly =>
        minMaxLoop rest (dictInsert xyAcc lane sy)
          (dictInsert mmAcc lane (fx.1, lx.1, fy.2, ly.2))
          (min g.1 fx.1, max g.2.1 lx.1, min g.2.2.1 fy.2, max g.2.2.2 ly.2)
      | _, _ => .error .indexError
    | _, _ => .error .indexError

/-- `Calibrator._calibXYMinMax`. -/
def calibXYMinMax (s : Calibrator) : Except CErr Calibrator :=
  match minMaxLoop s.xyByLane [] [] (0, 0, 0, 0) with
  | .error e => .error e
  | .ok (xy, mm, g) =>
    .ok { s with xyByLane := xy, xyMinMax := mm, globalXYMinMax := g }

/-- Loop of `_getLaneQuartilesPoints`. -/
def quartLoop (F : CalibFns) (xy : List (ℕ × List Pt)) (emgc : List ℕ) :
    List ℕ → List (ℕ × List Pt) → Except CErr (List (ℕ × List Pt))
  | [], acc => .ok acc
  | id :: rest, acc =>
    if id ∈ emgc then quartLoop F xy emgc rest acc
    else
      match dictLookup xy id with
      | none => .error .keyError
      | some l => quartLoop F xy emgc rest (dictInsert acc id (F.calQuartiles l))

/-- `Calibrator._getLaneQuartilesPoints`. -/
def getLaneQuartilesPoints (F : CalibFns) (s : Calibrator) : Except CErr Calibrator :=
  match quartLoop F s.xyByLane s.emgcIDs s.laneIDs [] with
  | .error e => .error e
  | .ok p => .ok { s with polyPts := p }

/-- Frozen-fit loop of `_calculateLanesFunction` (skips emergency lanes and
the outer lane). -/
def frozenLoop (F : CalibFns) (polyPts : List (ℕ × List Pt)) (emgc : List ℕ)
    (extID : ℕ) (c2 : ℚ) :
    List ℕ → List (ℕ × Coef) → Except CErr (List (ℕ × Coef))
  | [], acc => .ok acc
  | id :: rest, acc =>
    if id ∈ emgc ∨ id = extID then frozenLoop F polyPts emgc extID c2 rest acc
    else
      match dictLookup polyPts id with
      | none => .error .keyError
      | some l =>
        frozenLoop F polyPts emgc extID c2 rest (dictInsert acc id (F.poly2fitFrozen l c2))

/-- `Calibrator._calculateLanesFunction`: free fit of the outer lane, frozen
fits elsewhere, then emergency-lane curves by a perpendicular offset of
`(laneWidth+emgcWidth)/2` (`np.polyder`/`np.polyval` at 0 reduce to the linear
coefficient). -/
def calculateLanesFunction (F : CalibFns) (s : Calibrator) : Except CErr Calibrator :=
  match dictLookup s.polyPts s.extID with
  | none => .error .keyError
  | some extPts =>
    let extCoef := F.poly2fit extPts
    match frozenLoop F s.polyPts s.emgcIDs s.extID extCoef.1 s.laneIDs
        (dictInsert [] s.extID extCoef) with
    | .error e => .error e
    | .ok coef1 =>
      match dictLookup coef1 s.intID with
      | none => .error .keyError
      | some intCoef =>
        let d := (s.laneWidth + s.emgcWidth) / 2
        let k := extCoef.2.1
        let dY := d * F.sqrtQ (1 + k ^ 2)
        let aExt :=
          if extCoef.2.2 > intCoef.2.2 then (extCoef.1, extCoef.2.1, extCoef.2.2 + dY)
          else (extCoef.1, extCoef.2.1, extCoef.2.2 - dY)
        let aInt :=
          if extCoef.2.2 > intCoef.2.2 then (intCoef.1, intCoef.2.1, intCoef.2.2 - dY)
          else (intCoef.1, intCoef.2.1, intCoef.2.2 + dY)
        match s.emgcIDs.get? 0, s.emgcIDs.get? 1 with
        | some e0, some e1 =>
          let coef2 :=
            if s.intID = e0 + 1 then dictInsert (dictInsert coef1 e0 aInt) e1 aExt
            else dictInsert (dictInsert coef1 e0 aExt) e1 aInt
          .ok { s with coef := coef2 }
        | _, _ => .error .indexError

/-- Python list `count[order] += 1` with negative-index wraparound;
out-of-range raises `IndexError`. -/
def pyIncAt (l : List ℕ) (i : Int) : Except CErr (List ℕ) :=
  let j : Int := if i < 0 then l.length + i else i
  if 0 ≤ j ∧ j < l.length then .ok (l.set j.toNat (l.getD j.toNat 0 + 1))
  else .error .indexError

/-- Inner loop of `_calibCells`: drop each sample into its cell by counting
cut points below its y (`np.sum(xy[1] >= pts) - 1`). -/
def countIntoCells (pts : List ℚ) : List Pt → List ℕ → Except CErr (List ℕ)
  | [], count => .ok count
  | xy :: rest, count =>
    let order : Int := (pts.countP (fun p => decide (p ≤ xy.2)) : Int) - 1
    match pyIncAt count order with
    | .error e => .error e
    | .ok count' => countIntoCells pts rest count'

/-- First loop of `_calibCells`: per-lane cell occupancy counts, with the
`setdefault(id, [])` mutation of `xyByLane`. -/
def cellCountLoop (pts : List ℚ) (cellNum : ℕ) :
    List ℕ → List (ℕ × List Pt) → List (ℕ × List ℕ) →
    Except CErr (List (ℕ × List Pt) × List (ℕ × List ℕ))
  | [], xy, cc => .ok (xy, cc)
  | id :: rest, xy, cc =>
    let xy' := if (dictLookup xy id).isSome then xy else dictInsert xy id []
    match countIntoCells pts ((dictLookup xy' id).getD []) (List.replicate cellNum 0) with
    | .error e => .error e
    | .ok count => cellCountLoop pts cellNum rest xy' (dictInsert cc id count)

/-- Validity list of one lane: share of the lane total above `1/cellNum/5`.
The divisions are evaluated once per element, so an empty count list raises
nothing and yields `[]`; otherwise a zero lane total or `cellNum = 0` raises
`ZeroDivisionError`. -/
def validOfCount (count : List ℕ) (cellNum : ℕ) : Except CErr (List Bool) :=
  match count with
  | [] => .ok []
  | _ =>
    if count.sum = 0 ∨ cellNum = 0 then .error .zeroDivisionError
    else .ok (count.map (fun x => decide ((x : ℚ) / (count.sum : ℚ) > 1 / (cellNum : ℚ) / 5)))

/-- Second loop of `_calibCells`: validity per non-emergency lane, reversed
for lanes driving toward decreasing y. -/
def validLoop (cellNum : ℕ) (cc : List (ℕ × List ℕ)) (emgc : List ℕ)
    (vdir : List (ℕ × (Int × Int))) :
    List ℕ → List (ℕ × List Bool) → Except CErr (List (ℕ × List Bool))
  | [], cells => .ok cells
  | id :: rest, cells =>
    if id ∈ emgc then validLoop cellNum cc emgc vdir rest cells
    else
      match dictLookup cc id with
      | none => .error .keyError
      | some count =>
        match validOfCount count cellNum with
        | .error e => .error e
        | .ok valid =>
          match dictLookup vdir id with
          | none => .error .keyError
          | some dir =>
            let valid' := if dir.2 < 0 then valid.reverse else valid
            validLoop cellNum cc emgc vdir rest (dictInsert cells id valid')

/-- Final loop of `_calibCells`: emergency lanes get all-`False` validity. -/
def emgcCellsLoop (cellNum : ℕ) : List ℕ → List (ℕ × List Bool) → List (ℕ × List Bool)
  | [], cells => cells
  | id :: rest, cells => emgcCellsLoop cellNum rest (dictInsert cells id (List.replicate cellNum false))

/-- `Calibrator._calibCells`. -/
def calibCells (F : CalibFns) (s : Calibrator) : Except CErr Calibrator :=
  let ymin := s.globalXYMinMax.2.2.1
  let ymax := s.globalXYMinMax.2.2.2
  let pts := F.cutPts ymin ymax s.cellLen
  let cellNum := pts.length - 1
  match cellCountLoop pts cellNum s.laneIDs s.xyByLane [] with
  | .error e => .error e
  | .ok (xy', cc) =>
    match validLoop cellNum cc s.emgcIDs s.vDirDict s.laneIDs s.cells with
    | .error e => .error e
    | .ok cells1 =>
      .ok { s with xyByLane := xy', cells := emgcCellsLoop cellNum s.emgcIDs cells1 }

/-- Pipeline steps 2-7 of `Calibrator.calibrate`, from the state left by
`_distinguishNormalAndEmgcLanes`.  A Python exception propagates, so the
result pairs the state at the point of failure with the error. -/
def calibTail (F : CalibFns) (s1 : Calibrator) : Calibrator × Option CErr :=
  match distinguishInnerAndOutboardLaneID F s1 with
  | .error e => (s1, some e)
  | .ok s2 =>
    match distinguishLaneDirection s2 with
    | .error e => (s2, some e)
    | .ok s3 =>
      match calibXYMinMax s3 with
      | .error e => (s3, some e)
      | .ok s4 =>
        match getLaneQuartilesPoints F s4 with
        | .error e => (s4, some e)
        | .ok s5 =>
          match calculateLanesFunction F s5 with
          | .error e => (s5, some e)
          | .ok s6 =>
            match calibCells F s6 with
            | .error e => (s6, some e)
            | .ok s7 => (s7, none)

/-- `Calibrator.calibrate`: the seven pipeline steps in order. -/
def calibrateRun (F : CalibFns) (s : Calibrator) : Calibrator × Option CErr :=
  match distinguishNormalAndEmgcLanes s with
  | .error e => (s, some e)
  | .ok s1 => calibTail F s1

/-- `True` iff the lookup finds a list whose entries are all `False`. -/
def allFalseOpt : Option (List Bool) → Bool
  | none => false
  | some l => l.all (· == false)

def F0 : CalibFns :=
  { dbi := fun _ => 0, calQuartiles := fun l => l, poly2fit := fun _ => (0, 0, 0)
    poly2fitFrozen := fun _ _ => (0, 0, 0), cutPts := fun a b _ => [a, b], sqrtQ := fun _ => 0 }

def s0 : Calibrator :=
  { mkCalibrator 25 (15/4) (7/2) 50 0 with
    xyByLane := [(2, [(0, -10), (0, -1)]), (3, [(0, -9), (0, -2)])]
    vxyCount := [(2, (3, -3)), (3, (0, 2))] }

def s3bad : Calibrator :=
  { mkCalibrator 25 (15/4) (7/2) 50 0 with
    xyByLane := [(2, [(0, -10), (0, -1)]), (4, [(0, -9), (0, -2)])]
    vxyCount := [(2, (3, -3)), (4, (0, 2))] }

def s8 : Calibrator :=
  { mkCalibrator 25 (15/4) (7/2) 50 0 with
    laneIDs := [1, 2, 3, 4], emgcIDs := [1, 4]
    vxyCount := [(2, (3, -3)), (3, (0, 2))] }

lemma updateCache_cacheRet (cars : List Car) (c : Cell) :
    (updateCache cars c).cacheRet = c.cacheRet := by
  unfold updateCache
  dsimp only
  split <;> rfl

lemma applyFrames_cache_eq (frames : List (List Car)) :
    ∀ c : Cell, c.cache = [] →
      (applyFrames frames c).cacheRet = c.cacheRet ∧
      (applyFrames frames c).cache = frames.drop (frames.length - c.cacheRet) := by
  induction frames using List.reverseRecOn with
  | nil => intro c hc; simp [applyFrames, hc]
  | append_singleton fs f ih =>
    intro c hc
    have hfold : applyFrames (fs ++ [f]) c = updateCache f (applyFrames fs c) := by
      simp [applyFrames, List.foldl_append]
    obtain ⟨hret, hcache⟩ := ih c hc
    rw [hfold]
    refine ⟨by rw [updateCache_cacheRet, hret], ?_⟩
    set p := applyFrames fs c with hp
    unfold updateCache
    by_cases hR : fs.length < c.cacheRet
    · have h0 : fs.length - c.cacheRet = 0 := by omega
      have hpc : p.cache = fs := by rw [hcache, h0, List.drop_zero]
      have hcond : ¬ (p.cache ++ [f]).length > p.cacheRet := by
        rw [hpc, hret]; simp; omega
      simp only [hcond, if_false]
      rw [hpc]
      have : fs.length + 1 - c.cacheRet = 0 := by omega
      simp [this]
    · push_neg at hR
      have hlen : p.cache.length = c.cacheRet := by
        rw [hcache]; rw [List.length_drop]; omega
      have hcond : (p.cache ++ [f]).length > p.cacheRet := by
        rw [hret]; simp [hlen]
      simp only [hcond, if_true]
      by_cases hz : c.cacheRet = 0
      · have : p.cache = [] := List.eq_nil_of_length_eq_zero (by rw [hlen, hz])
        rw [this]
        simp [hz, List.drop_length]
      · have hne : p.cache ≠ [] := by
          intro h; rw [h] at hlen; simp at hlen; exact hz hlen.symm
        have htail : (p.cache ++ [f]).tail = p.cache.tail ++ [f] := by
          cases hpc : p.cache with
          | nil => exact absurd hpc hne
          | cons a l => simp
        rw [htail, hcache]
        have h1 : (fs.drop (fs.length - c.cacheRet)).tail = fs.drop (fs.length - c.cacheRet + 1) := by
          rw [List.tail_drop]
        rw [h1]
        have h2 : fs.length + 1 - c.cacheRet = fs.length - c.cacheRet + 1 := by omega
        have h3 : fs.length - c.cacheRet + 1 ≤ fs.length := by omega
        simp only [List.length_append, List.length_singleton]
        rw [h2, List.drop_append_of_le_length h3]

/-- C5: for every Cell and every sequence of `updateCache` calls from
construction, the cache length never exceeds `cacheRetention`, and once at
least `cacheRetention` frames have been appended the cache holds exactly the
last `cacheRetention` appended frames in arrival order. -/
theorem claim_C5 (laneID order : Int) (valid : Bool)
    (len start end' tt fps qs r2 vLat : ℚ) (cacheRet : ℕ)
    (frames : List (List Car)) :
    (applyFrames frames (mkCell laneID order valid len start end' tt fps qs r2 vLat cacheRet)).cache.length ≤ cacheRet ∧
    (cacheRet ≤ frames.length →
      (applyFrames frames (mkCell laneID order valid len start end' tt fps qs r2 vLat cacheRet)).cache.length = cacheRet ∧
      (applyFrames frames (mkCell laneID order valid len start end' tt fps qs r2 vLat cacheRet)).cache
        = frames.drop (frames.length - cacheRet)) := by
  obtain ⟨hret, hcache⟩ := applyFrames_cache_eq frames (mkCell laneID order valid len start end' tt fps qs r2 vLat cacheRet) rfl
  rw [hcache]
  constructor
  · rw [List.length_drop]; simp [mkCell]; omega
  · intro h
    refine ⟨?_, rfl⟩
    rw [List.length_drop]; simp [mkCell]; omega

/-- Witness for C5: five frames through a cell with `cacheRetention = 3`. -/
theorem claim_C5_witness :
    (applyFrames wFrames (mkCell 2 1 true 50 0 50 1 1 1800 (3/10) (3/2) 3)).cache.length = 3 ∧
    (applyFrames wFrames (mkCell 2 1 true 50 0 50 1 1 1800 (3/10) (3/2) 3)).cache
      = List.drop (wFrames.length - 3) wFrames :=
  (claim_C5 2 1 true 50 0 50 1 1 1800 (3/10) (3/2) 3 wFrames).2 (by decide)

/-- C9: `updateCache` modifies only the cache: `q`, `k`, `v`,
`averageVehicleCount` (`aveCarNum`), `dangerTime`, `dangerChange`, `danger`,
`r1` and the per-frame boosted flag `r2added` are unchanged. -/
theorem claim_C9 (cars : List Car) (c : Cell) :
    (updateCache cars c).q = c.q ∧ (updateCache cars c).k = c.k ∧
    (updateCache cars c).v = c.v ∧ (updateCache cars c).aveCarNum = c.aveCarNum ∧
    (updateCache cars c).dangerTime = c.dangerTime ∧
    (updateCache cars c).dangerChange = c.dangerChange ∧
    (updateCache cars c).danger = c.danger ∧ (updateCache cars c).r1 = c.r1 ∧
    (updateCache cars c).r2added = c.r2added := by
  unfold updateCache
  dsimp only
  split <;> refine ⟨rfl, rfl, rfl, rfl, rfl, rfl, rfl, rfl, rfl⟩

/-- C7: calling `applyUpstreamBoost` (`updateDangerPassive`) twice without an
intervening `resetBoostGuard` leaves the state identical to calling it once,
and from an unboosted state `dangerChange` grows by exactly one `r2`. -/
theorem claim_C7 (c : Cell) :
    updateDangerPassive (updateDangerPassive c) = updateDangerPassive c ∧
    (c.r2added = false →
      (updateDangerPassive (updateDangerPassive c)).dangerChange = c.dangerChange + c.r2) := by
  unfold updateDangerPassive
  by_cases h : c.r2added <;> simp [h]

/-- Witness for C7 at a concrete unboosted cell. -/
theorem claim_C7_witness :
    (updateDangerPassive (updateDangerPassive plainCell)).dangerChange
      = plainCell.dangerChange + plainCell.r2 :=
  (claim_C7 plainCell).2 rfl

/-- C2: contrary to the claim, `updateTraffic` on a Cell whose cache was
never populated does not return `k = v = q = 0`: `len(cars)/baseT` divides by
`baseT = 0` and raises `ZeroDivisionError` (modelled as `none`), for every
construction parameter choice. -/
theorem claim_C2 (laneID order : Int) (valid : Bool)
    (len start end' tt fps qs r2 vLat : ℚ) (cacheRet : ℕ) :
    updateTraffic (mkCell laneID order valid len start end' tt fps qs r2 vLat cacheRet) = none := by
  unfold updateTraffic mkCell
  dsimp only
  by_cases h : (0 : ℕ) < cacheRet
  · simp [h]
  · have h0 : cacheRet = 0 := by omega
    simp [h0]

attribute [local semireducible] Rat.add Rat.mul Rat.inv Rat.sub in
/-- C1 counterexample: on the spec's own scenario cache
`[[{vy:10}], [{vy:-10}], []]` the code yields `v = 0` (not the claimed mean of
`|vy|`, 10) and `q = 0` (not 480). -/
theorem claim_C1_counterexample :
    (updateTraffic scenarioCell).map Cell.v = some 0 ∧
    (updateTraffic scenarioCell).map Cell.v ≠ some 10 ∧
    (updateTraffic scenarioCell).map Cell.q ≠ some 480 := by
  decide

attribute [local semireducible] Rat.add Rat.mul Rat.inv Rat.sub in
/-- C1 amended: when `updateTraffic` succeeds and the cache holds at least
one vehicle, `v` is `|sum of vy| / count` — the absolute value of the signed
mean, which equals the mean of `|vy|` only when all `vy` share one sign — and
the scenario yields `averageVehicleCount = 2/3`, `k = 40/3`, `v = 0`,
`q = 0`. -/
theorem claim_C1_amended :
    (∀ c : Cell,
      (if c.cache.length < c.cacheRet then c.cache.length else c.cacheRet) ≠ 0 →
      c.len ≠ 0 → c.cache.flatten ≠ [] →
      (updateTraffic c).map Cell.v
        = some (|((c.cache.flatten.map Car.vy).sum)| / (c.cache.flatten.length : ℚ))) ∧
    (updateTraffic scenarioCell).map (fun t => (t.aveCarNum, t.k, t.v, t.q))
      = some (2/3, 40/3, 0, 0) := by
  constructor
  · intro c hb hl hc
    unfold updateTraffic
    dsimp only
    rw [if_neg hb, if_neg hl]
    have hlen : c.cache.flatten.length ≠ 0 := fun h => hc (List.eq_nil_of_length_eq_zero h)
    have have' : ((c.cache.flatten.length : ℚ) / ((if c.cache.length < c.cacheRet then c.cache.length else c.cacheRet : ℕ) : ℚ)) ≠ 0 := by
      apply div_ne_zero
      · exact_mod_cast hlen
      · exact_mod_cast hb
    rw [if_neg have']
    rfl
  · decide

attribute [local semireducible] Rat.add Rat.mul Rat.inv Rat.sub in
/-- Witness for the amended C1 at the scenario cell. -/
theorem claim_C1_witness :
    (updateTraffic scenarioCell).map Cell.v
      = some (|((scenarioCell.cache.flatten.map Car.vy).sum)| / (scenarioCell.cache.flatten.length : ℚ)) :=
  claim_C1_amended.1 scenarioCell (by decide) (by decide) (by decide)

lemma stepOp_inv (op : CellOp) (c c' : Cell) (hop : opFlowOk op = true)
    (h : stepOp op c = some c') (hc : dangerInv c) : dangerInv c' := by
  obtain ⟨h1, h2, h3, h4, h5, h6, h7⟩ := hc
  cases op with
  | updCache cars =>
    simp only [stepOp, Option.some.injEq] at h
    subst h
    unfold updateCache
    dsimp only
    split <;> exact ⟨h1, h2, h3, h4, h5, h6, h7⟩
  | updR1 q =>
    simp only [stepOp] at h
    split at h
    · cases h
    · simp only [Option.some.injEq] at h
      subst h
      have hq0 : 0 ≤ q := by simpa [opFlowOk] using hop
      exact ⟨h1, h2, h3, div_nonneg (mul_nonneg h6 hq0) (le_of_lt h7), h5, h6, h7⟩
  | updDanger =>
    simp only [stepOp] at h
    cases hd : updateDanger c with
    | none => rw [hd] at h; cases h
    | some t =>
      rw [hd] at h
      simp only [Option.map_some', Option.some.injEq] at h
      subst h
      unfold updateDanger at hd
      cases hl : c.cache.getLast? with
      | none => rw [hl] at hd; cases hd
      | some lastFrame =>
        rw [hl] at hd
        dsimp only at hd
        split at hd
        · simp only [Option.some.injEq] at hd
          rw [← hd]
          exact ⟨le_refl 0, h5, by simp, h4, h5, h6, h7⟩
        · simp only [Option.some.injEq] at hd
          rw [← hd]
          dsimp only
          constructor
          · split
            · exact h5
            · positivity
          constructor
          · split
            · exact le_refl _
            · next hgt => exact le_of_not_lt (fun hlt => hgt hlt)
          exact ⟨rfl, h4, h5, h6, h7⟩
  | updDangerPassive =>
    simp only [stepOp, Option.some.injEq] at h
    subst h
    unfold updateDangerPassive
    split
    · exact ⟨h1, h2, h3, h4, h5, h6, h7⟩
    · exact ⟨h1, h2, rfl, h4, h5, h6, h7⟩
  | resetStatus =>
    simp only [stepOp, Option.some.injEq] at h
    subst h
    exact ⟨h1, h2, h3, h4, h5, h6, h7⟩
  | resetDangerOp =>
    simp only [stepOp, Option.some.injEq] at h
    subst h
    exact ⟨le_refl 0, h5, by simp [resetDanger], h4, h5, h6, h7⟩

lemma runOps_inv : ∀ (ops : List CellOp) (c c' : Cell),
    (∀ op ∈ ops, opFlowOk op = true) → runOps ops c = some c' →
    dangerInv c → dangerInv c' := by
  intro ops
  induction ops with
  | nil =>
    intro c c' _ h hc
    simp only [runOps, Option.some.injEq] at h
    rw [← h]; exact hc
  | cons op rest ih =>
    intro c c' hops h hc
    simp only [runOps] at h
    cases hs : stepOp op c with
    | none => rw [hs] at h; cases h
    | some c1 =>
      rw [hs] at h
      exact ih c1 c' (fun o ho => hops o (List.mem_cons_of_mem _ ho)) h
        (stepOp_inv op c c1 (hops op (List.mem_cons_self _ _)) hs hc)

/-- C6: over every interleaving of cell calls from construction (including
`updateCache` and nonnegative-flow `updateR1`, with positive `tt`, `fps`,
`qs`), every reachable state satisfies `dangerTime ∈ [0, dangerTimeCap]` and
`danger = dangerTime + dangerChange`. -/
theorem claim_C6 (laneID order : Int) (valid : Bool)
    (len start end' tt fps qs r2 vLat : ℚ) (cacheRet : ℕ)
    (htt : 0 < tt) (hfps : 0 < fps) (hqs : 0 < qs)
    (ops : List CellOp) (hops : ∀ op ∈ ops, opFlowOk op = true)
    (c' : Cell)
    (h : runOps ops (mkCell laneID order valid len start end' tt fps qs r2 vLat cacheRet) = some c') :
    dangerOk c' := by
  have hinit : dangerInv (mkCell laneID order valid len start end' tt fps qs r2 vLat cacheRet) := by
    refine ⟨le_refl 0, by norm_num [mkCell], by simp [mkCell], le_refl 0, by norm_num [mkCell], ?_, hqs⟩
    show (0:ℚ) ≤ 1 / tt / fps
    positivity
  obtain ⟨h1, h2, h3, _⟩ := runOps_inv ops _ c' hops h hinit
  exact ⟨h1, h2, h3⟩

attribute [local semireducible] Rat.add Rat.mul Rat.inv Rat.sub in
/-- Witness for C6 on a concrete call sequence exercising clamping. -/
theorem claim_C6_witness : dangerOk ((runOps opsW cellW).getD cellW) :=
  claim_C6 1 0 true 50 0 50 1 1 1 (3/10) (3/2) 3
    (by norm_num) (by norm_num) (by norm_num) opsW (by decide)
    ((runOps opsW cellW).getD cellW) (by decide)

lemma stepOp_zeroInv (op : CellOp) (c c' : Cell) (hop : opNoR1NoBoost op = true)
    (h : stepOp op c = some c') (hc : zeroInv c) : zeroInv c' := by
  obtain ⟨h1, h2, h3, h4, h5⟩ := hc
  cases op with
  | updCache cars =>
    simp only [stepOp, Option.some.injEq] at h
    subst h
    unfold updateCache
    dsimp only
    split <;> exact ⟨h1, h2, h3, h4, h5⟩
  | updR1 q => simp [opNoR1NoBoost] at hop
  | updDanger =>
    simp only [stepOp] at h
    cases hd : updateDanger c with
    | none => rw [hd] at h; cases h
    | some t =>
      rw [hd] at h
      simp only [Option.map_some', Option.some.injEq] at h
      subst h
      unfold updateDanger at hd
      cases hl : c.cache.getLast? with
      | none => rw [hl] at hd; cases hd
      | some lastFrame =>
        rw [hl] at hd
        dsimp only at hd
        split at hd
        · simp only [Option.some.injEq] at hd
          rw [← hd]
          exact ⟨h1, rfl, rfl, rfl, h5⟩
        · simp only [Option.some.injEq] at hd
          rw [← hd]
          dsimp only
          have hdt0 : c.dangerTime + c.r1 = 0 := by rw [h1, h2]; norm_num
          have hcond : ¬ (c.dangerTime + c.r1 > c.dangerTimeTop) := by
            rw [hdt0]; exact not_lt.mpr h5
          rw [if_neg hcond]
          exact ⟨h1, hdt0, h3, by rw [hdt0, h3]; norm_num, h5⟩
  | updDangerPassive => simp [opNoR1NoBoost] at hop
  | resetStatus =>
    simp only [stepOp, Option.some.injEq] at h
    subst h
    exact ⟨h1, h2, h3, h4, h5⟩
  | resetDangerOp =>
    simp only [stepOp, Option.some.injEq] at h
    subst h
    exact ⟨h1, rfl, rfl, by simp [resetDanger], h5⟩

lemma runOps_zeroInv : ∀ (ops : List CellOp) (c c' : Cell),
    (∀ op ∈ ops, opNoR1NoBoost op = true) → runOps ops c = some c' →
    zeroInv c → zeroInv c' := by
  intro ops
  induction ops with
  | nil =>
    intro c c' _ h hc
    simp only [runOps, Option.some.injEq] at h
    rw [← h]; exact hc
  | cons op rest ih =>
    intro c c' hops h hc
    simp only [runOps] at h
    cases hs : stepOp op c with
    | none => rw [hs] at h; cases h
    | some c1 =>
      rw [hs] at h
      exact ih c1 c' (fun o ho => hops o (List.mem_cons_of_mem _ ho)) h
        (stepOp_zeroInv op c c1 (hops op (List.mem_cons_self _ _)) hs hc)

/-- C10: at construction `r1 = 0`, and along any call sequence containing no
`updateR1` and no `applyUpstreamBoost`, every reachable state (in particular
after `evaluateDanger` on an empty most-recent frame) has `dangerTime = 0` and
`danger = 0`. -/
theorem claim_C10 (laneID order : Int) (valid : Bool)
    (len start end' tt fps qs r2 vLat : ℚ) (cacheRet : ℕ)
    (ops : List CellOp) (hops : ∀ op ∈ ops, opNoR1NoBoost op = true) :
    (mkCell laneID order valid len start end' tt fps qs r2 vLat cacheRet).r1 = 0 ∧
    (∀ c', runOps ops (mkCell laneID order valid len start end' tt fps qs r2 vLat cacheRet) = some c' →
      c'.dangerTime = 0 ∧ c'.danger = 0) := by
  constructor
  · rfl
  · intro c' h
    have hinit : zeroInv (mkCell laneID order valid len start end' tt fps qs r2 vLat cacheRet) :=
      ⟨rfl, rfl, rfl, rfl, by norm_num [mkCell]⟩
    obtain ⟨_, h2, _, h4, _⟩ := runOps_zeroInv ops _ c' hops h hinit
    exact ⟨h2, h4⟩

attribute [local semireducible] Rat.add Rat.mul Rat.inv Rat.sub in
/-- Witness for C10 on a concrete `updateR1`-free call sequence. -/
theorem claim_C10_witness :
    (mkCell 1 0 true 50 0 50 1 1 1 (3/10) (3/2) 3).r1 = 0 ∧
    (((runOps opsW10 cellW).getD cellW).dangerTime = 0 ∧
     ((runOps opsW10 cellW).getD cellW).danger = 0) :=
  ⟨(claim_C10 1 0 true 50 0 50 1 1 1 (3/10) (3/2) 3 opsW10 (by decide)).1,
   (claim_C10 1 0 true 50 0 50 1 1 1 (3/10) (3/2) 3 opsW10 (by decide)).2
     ((runOps opsW10 cellW).getD cellW) (by decide)⟩

lemma dictLookup_dictInsert_self {α : Type} (d : List (ℕ × α)) (k : ℕ) (v : α) :
    dictLookup (dictInsert d k v) k = some v := by
  induction d with
  | nil => simp [dictInsert, dictLookup]
  | cons p rest ih =>
    obtain ⟨k', v'⟩ := p
    by_cases h : k' = k
    · simp [dictInsert, dictLookup, h]
    · simp [dictInsert, dictLookup, h, ih]

lemma dictLookup_dictInsert_ne {α : Type} (d : List (ℕ × α)) (k : ℕ) (v : α)
    (j : ℕ) (hj : j ≠ k) : dictLookup (dictInsert d k v) j = dictLookup d j := by
  induction d with
  | nil => simp [dictInsert, dictLookup, Ne.symm hj]
  | cons p rest ih =>
    obtain ⟨k', v'⟩ := p
    by_cases h : k' = k
    · subst h
      simp [dictInsert, dictLookup, Ne.symm hj]
    · simp only [dictInsert, if_neg h]
      by_cases h2 : k' = j
      · simp [dictLookup, h2]
      · simp [dictLookup, h2, ih]

lemma dirLoop_error (emgc : List ℕ) (vxy : List (ℕ × (Int × Int))) :
    ∀ (L : List ℕ) (acc : List (ℕ × (Int × Int))),
      (∃ id ∈ L, id ∉ emgc ∧ dictLookup vxy id = none) →
      ∃ e, dirLoop emgc vxy L acc = .error e := by
  intro L
  induction L with
  | nil => intro acc h; obtain ⟨id, h, _⟩ := h; cases h
  | cons a rest ih =>
    intro acc h
    obtain ⟨id, hmem, hne, hnone⟩ := h
    by_cases ha : a ∈ emgc
    · have hid : id ∈ rest := by
        cases List.mem_cons.mp hmem with
        | inl h => exact absurd (h ▸ ha) hne
        | inr h => exact h
      simpa [dirLoop, ha] using ih acc ⟨id, hid, hne, hnone⟩
    · cases hl : dictLookup vxy a with
      | none => exact ⟨.keyError, by simp [dirLoop, ha, hl]⟩
      | some v =>
        have hid : id ∈ rest := by
          cases List.mem_cons.mp hmem with
          | inl h => subst h; rw [hl] at hnone; cases hnone
          | inr h => exact h
        simpa [dirLoop, ha, hl] using
          ih (dictInsert acc a (if v.1 < 0 then -1 else 1, if v.2 < 0 then -1 else 1))
            ⟨id, hid, hne, hnone⟩

lemma dirLoop_ok (emgc : List ℕ) (vxy : List (ℕ × (Int × Int))) :
    ∀ (L : List ℕ) (acc : List (ℕ × (Int × Int))),
      (∀ id ∈ L, id ∉ emgc → (dictLookup vxy id).isSome = true) →
      ∃ d, dirLoop emgc vxy L acc = .ok d := by
  intro L
  induction L with
  | nil => intro acc _; exact ⟨acc, rfl⟩
  | cons a rest ih =>
    intro acc h
    by_cases ha : a ∈ emgc
    · simpa [dirLoop, ha] using ih acc (fun id hm hn => h id (List.mem_cons_of_mem _ hm) hn)
    · cases hl : dictLookup vxy a with
      | none =>
        have := h a (List.mem_cons_self _ _) ha
        rw [hl] at this
        cases this
      | some v =>
        simpa [dirLoop, ha, hl] using
          ih (dictInsert acc a (if v.1 < 0 then -1 else 1, if v.2 < 0 then -1 else 1))
            (fun id hm hn => h id (List.mem_cons_of_mem _ hm) hn)

lemma dirLoop_preserve (emgc : List ℕ) (vxy : List (ℕ × (Int × Int))) :
    ∀ (L : List ℕ) (acc d : List (ℕ × (Int × Int))) (k : ℕ),
      k ∉ L → dirLoop emgc vxy L acc = .ok d →
      dictLookup d k = dictLookup acc k := by
  intro L
  induction L with
  | nil =>
    intro acc d k _ h
    simp only [dirLoop, Except.ok.injEq] at h
    rw [← h]
  | cons a rest ih =>
    intro acc d k hk h
    have hka : k ≠ a := fun hh => hk (hh ▸ List.mem_cons_self _ _)
    have hkr : k ∉ rest := fun hh => hk (List.mem_cons_of_mem _ hh)
    by_cases ha : a ∈ emgc
    · simp only [dirLoop, if_pos ha] at h
      exact ih acc d k hkr h
    · cases hl : dictLookup vxy a with
      | none => simp [dirLoop, ha, hl] at h
      | some v =>
        simp only [dirLoop, if_neg ha, hl] at h
        rw [ih _ d k hkr h, dictLookup_dictInsert_ne _ _ _ _ hka]

lemma dirLoop_sets (emgc : List ℕ) (vxy : List (ℕ × (Int × Int))) :
    ∀ (L : List ℕ) (acc d : List (ℕ × (Int × Int))) (id : ℕ) (vx vy : Int),
      L.Nodup → id ∈ L → id ∉ emgc → dictLookup vxy id = some (vx, vy) →
      dirLoop emgc vxy L acc = .ok d →
      dictLookup d id = some (if vx < 0 then -1 else 1, if vy < 0 then -1 else 1) := by
  intro L
  induction L with
  | nil => intro _ _ _ _ _ _ h; cases h
  | cons a rest ih =>
    intro acc d id vx vy hnd hmem hne hv h
    by_cases hia : id = a
    · subst hia
      simp only [dirLoop, if_neg hne, hv] at h
      have hnr : id ∉ rest := (List.nodup_cons.mp hnd).1
      rw [dirLoop_preserve emgc vxy rest _ d id hnr h,
          dictLookup_dictInsert_self]
    · have hir : id ∈ rest := by
        cases List.mem_cons.mp hmem with
        | inl h => exact absurd h hia
        | inr h => exact h
      by_cases ha : a ∈ emgc
      · simp only [dirLoop, if_pos ha] at h
        exact ih acc d id vx vy (List.nodup_cons.mp hnd).2 hir hne hv h
      · cases hl : dictLookup vxy a with
        | none => simp [dirLoop, ha, hl] at h
        | some v =>
          simp only [dirLoop, if_neg ha, hl] at h
          exact ih _ d id vx vy (List.nodup_cons.mp hnd).2 hir hne hv h

lemma distinguishInner_ok_fields (F : CalibFns) (s s' : Calibrator)
    (h : distinguishInnerAndOutboardLaneID F s = .ok s') :
    s'.laneIDs = s.laneIDs ∧ s'.emgcIDs = s.emgcIDs ∧ s'.vxyCount = s.vxyCount ∧
    s'.cells = s.cells ∧ s'.xyByLane = s.xyByLane := by
  unfold distinguishInnerAndOutboardLaneID at h
  dsimp only at h
  split at h
  · split at h
    · split at h <;> (cases h; exact ⟨rfl, rfl, rfl, rfl, rfl⟩)
    · cases h
  · cases h

lemma distinguishLaneDirection_ok_fields (s s' : Calibrator)
    (h : distinguishLaneDirection s = .ok s') :
    s'.laneIDs = s.laneIDs ∧ s'.emgcIDs = s.emgcIDs ∧ s'.cells = s.cells := by
  unfold distinguishLaneDirection at h
  split at h
  · cases h
  · split at h
    · cases h
    · cases h; exact ⟨rfl, rfl, rfl⟩

lemma calibXYMinMax_ok_fields (s s' : Calibrator)
    (h : calibXYMinMax s = .ok s') :
    s'.laneIDs = s.laneIDs ∧ s'.emgcIDs = s.emgcIDs ∧ s'.cells = s.cells := by
  unfold calibXYMinMax at h
  split at h
  · cases h
  · cases h; exact ⟨rfl, rfl, rfl⟩

lemma getLaneQuartilesPoints_ok_fields (F : CalibFns) (s s' : Calibrator)
    (h : getLaneQuartilesPoints F s = .ok s') :
    s'.laneIDs = s.laneIDs ∧ s'.emgcIDs = s.emgcIDs ∧ s'.cells = s.cells := by
  unfold getLaneQuartilesPoints at h
  split at h
  · cases h
  · cases h; exact ⟨rfl, rfl, rfl⟩

lemma calculateLanesFunction_ok_fields (F : CalibFns) (s s' : Calibrator)
    (h : calculateLanesFunction F s = .ok s') :
    s'.laneIDs = s.laneIDs ∧ s'.emgcIDs = s.emgcIDs ∧ s'.cells = s.cells := by
  unfold calculateLanesFunction at h
  dsimp only at h
  split at h
  · cases h
  · split at h
    · cases h
    · split at h
      · cases h
      · split at h
        · cases h; exact ⟨rfl, rfl, rfl⟩
        · cases h

lemma all_false_replicate (n : ℕ) :
    ((List.replicate n false).all (· == false)) = true := by
  induction n with
  | zero => rfl
  | succ k ih => simp [List.replicate, List.all, ih]

lemma calibCells_ok_emgc (F : CalibFns) (s s' : Calibrator) (m : ℕ)
    (h : calibCells F s = .ok s') (hem : s.emgcIDs = [1, m]) (hm : m ≠ 1) :
    s'.emgcIDs = s.emgcIDs ∧
    allFalseOpt (dictLookup s'.cells 1) = true ∧
    allFalseOpt (dictLookup s'.cells m) = true := by
  unfold calibCells at h
  dsimp only at h
  split at h
  · cases h
  · split at h
    · cases h
    · cases h
      refine ⟨rfl, ?_, ?_⟩
      · show allFalseOpt (dictLookup (emgcCellsLoop _ s.emgcIDs _) 1) = true
        rw [hem]
        show allFalseOpt (dictLookup (dictInsert (dictInsert _ 1 _) m _) 1) = true
        rw [dictLookup_dictInsert_ne _ _ _ _ (Ne.symm hm), dictLookup_dictInsert_self]
        simp only [allFalseOpt]
        exact all_false_replicate _
      · show allFalseOpt (dictLookup (emgcCellsLoop _ s.emgcIDs _) m) = true
        rw [hem]
        show allFalseOpt (dictLookup (dictInsert (dictInsert _ 1 _) m _) m) = true
        rw [dictLookup_dictInsert_self]
        simp only [allFalseOpt]
        exact all_false_replicate _

lemma calibTail_ok_emgc (F : CalibFns) (s1 : Calibrator) (m : ℕ)
    (hem : s1.emgcIDs = [1, m]) (hm1 : m ≠ 1)
    (hok : (calibTail F s1).2 = none) :
    (calibTail F s1).1.emgcIDs = [1, m] ∧
    allFalseOpt (dictLookup (calibTail F s1).1.cells 1) = true ∧
    allFalseOpt (dictLookup (calibTail F s1).1.cells m) = true := by
  unfold calibTail at hok ⊢
  cases e2 : distinguishInnerAndOutboardLaneID F s1 with
  | error e => rw [e2] at hok; simp at hok
  | ok s2 =>
    rw [e2] at hok
    dsimp only at hok ⊢
    obtain ⟨-, hem2, -, -, -⟩ := distinguishInner_ok_fields F s1 s2 e2
    cases e3 : distinguishLaneDirection s2 with
    | error e => rw [e3] at hok; simp at hok
    | ok s3 =>
      rw [e3] at hok
      dsimp only at hok ⊢
      obtain ⟨-, hem3, -⟩ := distinguishLaneDirection_ok_fields s2 s3 e3
      cases e4 : calibXYMinMax s3 with
      | error e => rw [e4] at hok; simp at hok
      | ok s4 =>
        rw [e4] at hok
        dsimp only at hok ⊢
        obtain ⟨-, hem4, -⟩ := calibXYMinMax_ok_fields s3 s4 e4
        cases e5 : getLaneQuartilesPoints F s4 with
        | error e => rw [e5] at hok; simp at hok
        | ok s5 =>
          rw [e5] at hok
          dsimp only at hok ⊢
          obtain ⟨-, hem5, -⟩ := getLaneQuartilesPoints_ok_fields F s4 s5 e5
          cases e6 : calculateLanesFunction F s5 with
          | error e => rw [e6] at hok; simp at hok
          | ok s6 =>
            rw [e6] at hok
            dsimp only at hok ⊢
            obtain ⟨-, hem6, -⟩ := calculateLanesFunction_ok_fields F s5 s6 e6
            have hem6' : s6.emgcIDs = [1, m] := by
              rw [hem6, hem5, hem4, hem3, hem2, hem]
            cases e7 : calibCells F s6 with
            | error e => rw [e7] at hok; simp at hok
            | ok s7 =>
              dsimp only
              obtain ⟨h1, h2, h3⟩ := calibCells_ok_emgc F s6 s7 m e7 hem6' hm1
              exact ⟨by rw [h1, hem6'], h2, h3⟩

lemma calibTail_error_of_missing_dir (F : CalibFns) (s1 : Calibrator)
    (m id0 : ℕ) (hln : s1.laneIDs = List.range' 1 m) (hem : s1.emgcIDs = [1, m])
    (hid : id0 ∈ List.range' 1 m) (hne1 : id0 ≠ 1) (hnem : id0 ≠ m)
    (hcoh : dictLookup s1.vxyCount id0 = none) :
    (calibTail F s1).2.isSome = true ∧ (calibTail F s1).1.cells = s1.cells := by
  unfold calibTail
  cases e2 : distinguishInnerAndOutboardLaneID F s1 with
  | error e => exact ⟨rfl, rfl⟩
  | ok s2 =>
    dsimp only
    obtain ⟨hln2, hem2, hvxy2, hcells2, -⟩ := distinguishInner_ok_fields F s1 s2 e2
    have hnemgc : id0 ∉ s2.emgcIDs := by
      rw [hem2, hem]
      intro hmem
      rcases List.mem_cons.mp hmem with h | h
      · exact hne1 h
      · rcases List.mem_cons.mp h with h | h
        · exact hnem h
        · cases h
    have herr : ∃ e, dirLoop s2.emgcIDs s2.vxyCount s2.laneIDs [] = .error e := by
      apply dirLoop_error
      refine ⟨id0, ?_, hnemgc, ?_⟩
      · rw [hln2, hln]; exact hid
      · rw [hvxy2]; exact hcoh
    obtain ⟨e, herr⟩ := herr
    have e3 : distinguishLaneDirection s2 = .error e := by
      unfold distinguishLaneDirection
      rw [herr]
    rw [e3]
    exact ⟨rfl, by dsimp only; rw [hcells2]⟩

/-- C4: whenever `calibrate()` completes on a state with observed lane ids of
maximum `M`, it marks as emergency exactly the lanes `[1, m]` where `m` is the
unique even number in `[M, M+1]` (the smallest even number `≥ M`), and both
emergency lanes' `cellValidity` lists exist and contain only `false`. -/
theorem claim_C4 (F : CalibFns) (s : Calibrator) (M m : ℕ)
    (hM : (s.xyByLane.map Prod.fst).max? = some M)
    (hm : m = if M % 2 = 1 then M + 1 else M)
    (hok : (calibrateRun F s).2 = none) :
    (calibrateRun F s).1.emgcIDs = [1, m] ∧
    allFalseOpt (dictLookup (calibrateRun F s).1.cells 1) = true ∧
    allFalseOpt (dictLookup (calibrateRun F s).1.cells m) = true ∧
    m % 2 = 0 ∧ M ≤ m ∧ m ≤ M + 1 := by
  have harith : m % 2 = 0 ∧ M ≤ m ∧ m ≤ M + 1 := by
    subst hm
    rcases Nat.mod_two_eq_zero_or_one M with h | h <;> simp [h] <;> omega
  have hm1 : m ≠ 1 := by
    obtain ⟨h0, -, -⟩ := harith
    omega
  unfold calibrateRun at hok ⊢
  cases e1 : distinguishNormalAndEmgcLanes s with
  | error e => rw [e1] at hok; simp at hok
  | ok s1 =>
    rw [e1] at hok
    dsimp only at hok ⊢
    have hem1 : s1.emgcIDs = [1, m] := by
      unfold distinguishNormalAndEmgcLanes at e1
      rw [hM] at e1
      dsimp only at e1
      cases e1
      dsimp only
      rw [hm]
    obtain ⟨h1, h2, h3⟩ := calibTail_ok_emgc F s1 m hem1 hm1 hok
    exact ⟨h1, h2, h3, harith⟩

/-- C3: if some non-emergency lane in the lane set `1..m` has zero
accumulated samples (no `xyByLane`/`vxyCount` entry), `calibrate()` fails —
the spec's `InsufficientDataError`, a `KeyError` in the code — and the cells
store is left untouched: no partial record is emitted for any lane. -/
theorem claim_C3 (F : CalibFns) (s : Calibrator) (M m id0 : ℕ)
    (hM : (s.xyByLane.map Prod.fst).max? = some M)
    (hm : m = if M % 2 = 1 then M + 1 else M)
    (hid : id0 ∈ List.range' 1 m) (hne1 : id0 ≠ 1) (hnem : id0 ≠ m)
    (_hmiss : dictLookup s.xyByLane id0 = none)
    (hcoh : dictLookup s.vxyCount id0 = none) :
    (calibrateRun F s).2.isSome = true ∧ (calibrateRun F s).1.cells = s.cells := by
  unfold calibrateRun
  cases e1 : distinguishNormalAndEmgcLanes s with
  | error e => exact ⟨rfl, rfl⟩
  | ok s1 =>
    dsimp only
    have hfields : s1.laneIDs = List.range' 1 m ∧ s1.emgcIDs = [1, m] ∧
        s1.vxyCount = s.vxyCount ∧ s1.cells = s.cells := by
      unfold distinguishNormalAndEmgcLanes at e1
      rw [hM] at e1
      dsimp only at e1
      cases e1
      exact ⟨by dsimp only; rw [hm], by dsimp only; rw [hm], rfl, rfl⟩
    obtain ⟨hln1, hem1, hvxy1, hcells1⟩ := hfields
    have hres := calibTail_error_of_missing_dir F s1 m id0 hln1 hem1 hid hne1 hnem
      (by rw [hvxy1]; exact hcoh)
    exact ⟨hres.1, by rw [hres.2, hcells1]⟩

attribute [local semireducible] Rat.add Rat.mul Rat.inv Rat.sub in
/-- Witness for C4: a two-lane observation set with `M = 3`, so `m = 4`. -/
theorem claim_C4_witness :
    (calibrateRun F0 s0).1.emgcIDs = [1, 4] ∧
    allFalseOpt (dictLookup (calibrateRun F0 s0).1.cells 1) = true ∧
    allFalseOpt (dictLookup (calibrateRun F0 s0).1.cells 4) = true ∧
    4 % 2 = 0 ∧ 3 ≤ 4 ∧ 4 ≤ 3 + 1 :=
  claim_C4 F0 s0 3 4 (by decide) (by decide) (by decide)

/-- Witness for C3: lane 3 of `1..4` has no samples, calibration fails with
no cells emitted. -/
theorem claim_C3_witness :
    (calibrateRun F0 s3bad).2.isSome = true ∧
    (calibrateRun F0 s3bad).1.cells = s3bad.cells :=
  claim_C3 F0 s3bad 4 4 3 (by decide) (by decide) (by decide) (by decide) (by decide)
    (by decide) (by decide)

/-- C8: `calibrate()`'s direction inference (`_distinguishLaneDirection`)
gives every non-emergency lane the direction component `-1` exactly when that
lane's vote counter component is negative and `+1` otherwise, so a vote of
exactly 0 resolves to `+1`; lane 1's direction equals lane 2's and lane `m`'s
equals lane `m-1`'s (both present in the result).  The hypotheses describe the
state `_distinguishNormalAndEmgcLanes` hands over — `laneIDs = 1..m`,
`emgcIDs = [1, m]` — with `3 ≤ m` so the copied neighbours 2 and `m-1` are
non-emergency lanes (with `m = 2` the code itself raises `KeyError`). -/
theorem claim_C8 (s : Calibrator) (m : ℕ) (h3 : 3 ≤ m)
    (hem : s.emgcIDs = [1, m]) (hln : s.laneIDs = List.range' 1 m)
    (hv : ∀ id ∈ s.laneIDs, id ∉ s.emgcIDs → (dictLookup s.vxyCount id).isSome = true) :
    (∀ id vx vy, id ∈ s.laneIDs → id ∉ s.emgcIDs →
      dictLookup s.vxyCount id = some (vx, vy) →
      (distinguishLaneDirection s).map (fun t => dictLookup t.vDirDict id)
        = .ok (some (if vx < 0 then -1 else 1, if vy < 0 then -1 else 1))) ∧
    ((distinguishLaneDirection s).map
        (fun t => (dictLookup t.vDirDict 1 == dictLookup t.vDirDict 2) &&
                  (dictLookup t.vDirDict 2).isSome) = .ok true) ∧
    ((distinguishLaneDirection s).map
        (fun t => (dictLookup t.vDirDict m == dictLookup t.vDirDict (m - 1)) &&
                  (dictLookup t.vDirDict (m - 1)).isSome) = .ok true) := by
  have h2mem : 2 ∈ s.laneIDs := by
    rw [hln]; exact List.mem_range'_1.mpr ⟨by omega, by omega⟩
  have h2ne : 2 ∉ s.emgcIDs := by
    rw [hem]
    intro hh
    have : 2 = 1 ∨ 2 = m := by simpa using hh
    omega
  have hm1mem : m - 1 ∈ s.laneIDs := by
    rw [hln]; exact List.mem_range'_1.mpr ⟨by omega, by omega⟩
  have hm1ne : m - 1 ∉ s.emgcIDs := by
    rw [hem]
    intro hh
    have : m - 1 = 1 ∨ m - 1 = m := by simpa using hh
    omega
  obtain ⟨d1, hd1⟩ := dirLoop_ok s.emgcIDs s.vxyCount s.laneIDs [] hv
  have hnd : s.laneIDs.Nodup := by rw [hln]; exact List.nodup_range' 1 m
  obtain ⟨⟨vx2, vy2⟩, hv2⟩ := Option.isSome_iff_exists.mp (hv 2 h2mem h2ne)
  obtain ⟨⟨vxm, vym⟩, hvm⟩ := Option.isSome_iff_exists.mp (hv (m - 1) hm1mem hm1ne)
  have hd1at2 := dirLoop_sets s.emgcIDs s.vxyCount s.laneIDs [] d1 2 vx2 vy2
    hnd h2mem h2ne hv2 hd1
  have hd1atm1 := dirLoop_sets s.emgcIDs s.vxyCount s.laneIDs [] d1 (m - 1) vxm vym
    hnd hm1mem hm1ne hvm hd1
  set t2 : Int × Int := (if vx2 < 0 then -1 else 1, if vy2 < 0 then -1 else 1) with ht2
  set tm : Int × Int := (if vxm < 0 then -1 else 1, if vym < 0 then -1 else 1) with htm
  set D : List (ℕ × (Int × Int)) := dictInsert (dictInsert d1 1 t2) m tm with hD
  have hstep : emgcDirLoop s.emgcIDs d1 = .ok D := by
    rw [hem]
    show (match dictLookup d1 (if (1 : ℕ) = 1 then 1 + 1 else 1 - 1) with
          | none => Except.error CErr.keyError
          | some t => emgcDirLoop [m] (dictInsert d1 1 t)) = _
    rw [if_pos rfl]
    show (match dictLookup d1 2 with
          | none => Except.error CErr.keyError
          | some t => emgcDirLoop [m] (dictInsert d1 1 t)) = _
    rw [hd1at2]
    show (match dictLookup (dictInsert d1 1 t2) (if m = 1 then m + 1 else m - 1) with
          | none => Except.error CErr.keyError
          | some t => emgcDirLoop [] (dictInsert (dictInsert d1 1 t2) m t)) = _
    rw [if_neg (by omega : ¬ m = 1),
        dictLookup_dictInsert_ne _ _ _ _ (by omega : m - 1 ≠ 1), hd1atm1]
    rfl
  have hdl : distinguishLaneDirection s = .ok { s with vDirDict := D } := by
    unfold distinguishLaneDirection
    rw [hd1]
    dsimp only
    rw [hstep]
  have hDat1 : dictLookup D 1 = some t2 := by
    rw [hD, dictLookup_dictInsert_ne _ _ _ _ (by omega : (1 : ℕ) ≠ m),
        dictLookup_dictInsert_self]
  have hDat2 : dictLookup D 2 = some t2 := by
    rw [hD, dictLookup_dictInsert_ne _ _ _ _ (by omega : (2 : ℕ) ≠ m),
        dictLookup_dictInsert_ne _ _ _ _ (by omega : (2 : ℕ) ≠ 1), hd1at2]
  have hDatm : dictLookup D m = some tm := by
    rw [hD, dictLookup_dictInsert_self]
  have hDatm1 : dictLookup D (m - 1) = some tm := by
    rw [hD, dictLookup_dictInsert_ne _ _ _ _ (by omega : m - 1 ≠ m),
        dictLookup_dictInsert_ne _ _ _ _ (by omega : m - 1 ≠ 1), hd1atm1]
  refine ⟨?_, ?_, ?_⟩
  · intro id vx vy hmem hnem hvid
    have hne' : id ≠ 1 ∧ id ≠ m := by
      rw [hem] at hnem
      simpa using hnem
    rw [hdl]
    simp only [Except.map]
    rw [hD, dictLookup_dictInsert_ne _ _ _ _ hne'.2, dictLookup_dictInsert_ne _ _ _ _ hne'.1,
        dirLoop_sets s.emgcIDs s.vxyCount s.laneIDs [] d1 id vx vy hnd hmem hnem hvid hd1]
  · rw [hdl]
    simp only [Except.map]
    rw [hDat1, hDat2]
    simp
  · rw [hdl]
    simp only [Except.map]
    rw [hDatm, hDatm1]
    simp

/-- Witness for C8: lane 2 votes `(3, -3)` giving direction `(+1, -1)`, lane 3
votes `(0, 2)` exercising the zero-vote tie-break to `+1`, and the two
emergency-lane copies hold. -/
theorem claim_C8_witness :
    ((distinguishLaneDirection s8).map (fun t => dictLookup t.vDirDict 2)
        = .ok (some (if (3 : Int) < 0 then -1 else 1, if (-3 : Int) < 0 then -1 else 1))) ∧
    ((distinguishLaneDirection s8).map (fun t => dictLookup t.vDirDict 3)
        = .ok (some (if (0 : Int) < 0 then -1 else 1, if (2 : Int) < 0 then -1 else 1))) ∧
    ((distinguishLaneDirection s8).map
        (fun t => (dictLookup t.vDirDict 1 == dictLookup t.vDirDict 2) &&
                  (dictLookup t.vDirDict 2).isSome) = .ok true) ∧
    ((distinguishLaneDirection s8).map
        (fun t => (dictLookup t.vDirDict 4 == dictLookup t.vDirDict (4 - 1)) &&
                  (dictLookup t.vDirDict (4 - 1)).isSome) = .ok true) :=
  ⟨(claim_C8 s8 4 (by norm_num) rfl (by decide) (by decide)).1 2 3 (-3)
      (by decide) (by decide) (by decide),
   (claim_C8 s8 4 (by norm_num) rfl (by decide) (by decide)).1 3 0 2
      (by decide) (by decide) (by decide),
   (claim_C8 s8 4 (by norm_num) rfl (by decide) (by decide)).2.1,
   (claim_C8 s8 4 (by norm_num) rfl (by decide) (by decide)).2.2⟩
